import Mathlib

/-!
# Verification of the keepassman vault core

Shallow embedding of the cryptographic engine and vault-authentication
logic of the WebVault/keepassman repository, together with proofs of the
specification's claims about it.

The TypeScript orchestration code (`src/utils/crypto-utils.ts`, the unlock
button handler, the save handler, `BiometricService`, `SecurityScanner`)
is embedded directly.  The cryptographic primitives themselves (Argon2id
key derivation and AES-256-GCM, which live in the Rust-Wasm bridge
`pkg/securepass_wasm`, and the platform's `crypto.subtle` PBKDF2/AES-GCM)
are not part of the repository's sources; they are modelled from the
spec's contracts as ideal injective functions, with an explicit
authentication tag so that tampering is detected, exactly as the spec's
AeadCipher contract demands.
-/

/-- Byte strings.  We use `List Nat`; where overflow or byte-validity
matters a `< 256` bound is carried explicitly. -/
abbrev Bytes := List Nat

/-- The UTF-32 code points of a string, as the byte-level image of a
JavaScript string handed to the crypto layer (`TextEncoder` boundary). -/
def strBytes (s : String) : Bytes := s.data.map Char.toNat

/-- Inverse of `strBytes` (the `TextDecoder` boundary). -/
def bytesToStr (l : Bytes) : String := ⟨l.map Char.ofNat⟩

/-- Modelled from the spec: KeyDerivation `derive(password, salt, params) ->
key` — the actual Argon2id implementation lives in the Rust-Wasm bridge,
absent from the repository sources.  The spec requires a deterministic
function for which distinct `(password, salt)` pairs yield distinct keys
with overwhelming probability; the ideal model makes it injective outright
(the salt is length-prefixed so the pair is recoverable). -/
def deriveKey (password : String) (salt : Bytes) : Bytes :=
  salt.length :: salt ++ strBytes password

/-- Modelled from the spec: AeadCipher
`encrypt(plaintext, key, nonce) -> ciphertext` (AES-256-GCM in the
Rust-Wasm bridge, absent from the repository sources).  The ideal model
emits an injective encoding of `(key, nonce, plaintext)` carrying a
one-byte authentication tag; any single-byte corruption is detectable, and
decryption recovers the plaintext exactly, which is the whole of the
spec's contract for the cipher. -/
def encryptBytes (plaintext : Bytes) (key : Bytes) (nonce : Bytes) : Bytes :=
  let body := key.length :: (key ++ (nonce.length :: (nonce ++ plaintext)))
  body.sum % 256 :: body

/-- Modelled from the spec: AeadCipher
`decrypt(ciphertext, key, nonce) -> plaintext | AuthenticationError`
(`none` plays the role of `AuthenticationError`).  Checks the
authentication tag, then that the embedded key and nonce match the ones
supplied; all-or-nothing. -/
def decryptBytes (c : Bytes) (key : Bytes) (nonce : Bytes) : Option Bytes :=
  match c with
  | [] => none
  | tag :: body =>
    if tag = body.sum % 256 then
      match body with
      | [] => none
      | kl :: rest =>
        if kl = key.length ∧ rest.take key.length = key then
          match rest.drop key.length with
          | [] => none
          | nl :: rest₂ =>
            if nl = nonce.length ∧ rest₂.take nonce.length = nonce then
              some (rest₂.drop nonce.length)
            else none
        else none
    else none

/-- A vault entry, after the shape used by the vault object
(`{ id, title, username, password, category, totpSecret?, history? }`);
`history` is `none` when the JavaScript field is absent/undefined. -/
structure Entry where
  id : String
  title : String
  username : String
  password : String
  category : String
  totpSecret : Option String
  history : Option (List String)
deriving DecidableEq

/-- A JSON value as far as the vault flows distinguish them: either an
object of the vault shape `{ entries: [...] }`, or some other JSON value
(which `JSON.parse` happily returns; the unlock handler never checks the
shape). -/
inductive JsVal where
  | vaultObj (entries : List Entry)
  | otherJson (tag : Nat)
deriving DecidableEq

/-- A byte payload handed to the cipher: either the UTF-8 text of a JSON
document, or text that is not valid JSON (`JSON.parse` throws on it). -/
inductive Doc where
  | jsonDoc (v : JsVal)
  | notJson (tag : Nat)
deriving DecidableEq

def encStr (s : String) : Bytes := s.length :: strBytes s

def decStr : Bytes → Option (String × Bytes)
  | [] => none
  | len :: rest =>
    if len ≤ rest.length then some (bytesToStr (rest.take len), rest.drop len) else none

def encOptStr : Option String → Bytes
  | none => [0]
  | some s => 1 :: encStr s

def decOptStr : Bytes → Option (Option String × Bytes)
  | [] => none
  | t :: rest =>
    if t = 0 then some (none, rest)
    else
      match decStr rest with
      | some (s, rest') => some (some s, rest')
      | none => none

def encStrList (l : List String) : Bytes := l.length :: (l.map encStr).flatten

def decStrListN : Nat → Bytes → Option (List String × Bytes)
  | 0, rest => some ([], rest)
  | n + 1, rest =>
    match decStr rest with
    | some (s, rest') =>
      match decStrListN n rest' with
      | some (l, rest'') => some (s :: l, rest'')
      | none => none
    | none => none

def encHist : Option (List String) → Bytes
  | none => [0]
  | some l => 1 :: encStrList l

def decHist : Bytes → Option (Option (List String) × Bytes)
  | [] => none
  | t :: rest =>
    if t = 0 then some (none, rest)
    else
      match rest with
      | [] => none
      | cnt :: rest' =>
        match decStrListN cnt rest' with
        | some (l, rest'') => some (some l, rest'')
        | none => none

def encEntry (e : Entry) : Bytes :=
  encStr e.id ++ encStr e.title ++ encStr e.username ++ encStr e.password ++
    encStr e.category ++ encOptStr e.totpSecret ++ encHist e.history

def decEntry (b : Bytes) : Option (Entry × Bytes) :=
  match decStr b with
  | none => none
  | some (idv, b₁) =>
    match decStr b₁ with
    | none => none
    | some (titlev, b₂) =>
      match decStr b₂ with
      | none => none
      | some (usernamev, b₃) =>
        match decStr b₃ with
        | none => none
        | some (passwordv, b₄) =>
          match decStr b₄ with
          | none => none
          | some (categoryv, b₅) =>
            match decOptStr b₅ with
            | none => none
            | some (totpv, b₆) =>
              match decHist b₆ with
              | none => none
              | some (histv, b₇) =>
                some (⟨idv, titlev, usernamev, passwordv, categoryv, totpv, histv⟩, b₇)

def encEntryList (l : List Entry) : Bytes := l.length :: (l.map encEntry).flatten

def decEntryListN : Nat → Bytes → Option (List Entry × Bytes)
  | 0, rest => some ([], rest)
  | n + 1, rest =>
    match decEntry rest with
    | some (e, rest') =>
      match decEntryListN n rest' with
      | some (l, rest'') => some (e :: l, rest'')
      | none => none
    | none => none

def encJsVal : JsVal → Bytes
  | .vaultObj es => 0 :: encEntryList es
  | .otherJson t => [1, t]

def decJsVal : Bytes → Option (JsVal × Bytes)
  | 0 :: cnt :: rest =>
    match decEntryListN cnt rest with
    | some (es, rest') => some (.vaultObj es, rest')
    | none => none
  | 1 :: t :: rest => some (.otherJson t, rest)
  | _ => none

/-- The function `JSON.stringify`, modelled as an injective byte encoding of the
document (the unlock/save flows treat the serialized text as opaque). -/
def docBytes : Doc → Bytes
  | .jsonDoc v => 0 :: encJsVal v
  | .notJson t => [1, t]

/-- The function `JSON.parse`, modelled as the partial inverse of `docBytes`: returns
the JSON value when the bytes are a well-formed JSON document, and `none`
(`JSON.parse` throws) otherwise. -/
def jsonParse (b : Bytes) : Option JsVal :=
  match b with
  | 0 :: rest =>
    match decJsVal rest with
    | some (v, []) => some v
    | _ => none
  | _ => none

/-- An encrypted blob as persisted in localStorage: `{ iv, data }`. -/
structure Blob where
  iv : Bytes
  data : Bytes
deriving DecidableEq

/-- The localStorage slots the unlock and save flows touch. -/
structure Store where
  encrypted_vault : Option Blob
  decoy_vault : Option Blob
  vault_salt : Option Bytes
  decoy_salt : Option Bytes
deriving DecidableEq

/-- The helper `getSalt(storageKey)` as used inside the unlock handler: the stored
salt when one is present, otherwise a freshly generated random salt
(`fresh` stands for the output of `generateSalt()`). -/
def getSaltD (stored : Option Bytes) (fresh : Bytes) : Bytes :=
  match stored with
  | some saltArray => saltArray
  | none => fresh

/-- The observable outcome of one run of the unlock-button click handler:
`noAttempt` (empty password, handler returns early), `granted` (the vault
view is presented), `accessDenied` (alert "Access Denied: Incorrect
Master Password.") or `encryptionError` (outer catch, alert "Encryption
Error."). -/
inductive UnlockOutcome where
  | noAttempt
  | granted
  | accessDenied
  | encryptionError
deriving DecidableEq

/-- The alert text each outcome surfaces (`none` when no alert fires). -/
def alertMessage : UnlockOutcome → Option String
  | .accessDenied => some "Access Denied: Incorrect Master Password."
  | .encryptionError => some "Encryption Error."
  | _ => none

/-- The module-level mutable state of the orchestration file that the
unlock handler reads and writes: `sessionKey`, `isDecoyMode`, `vault`. -/
structure SessionState where
  sessionKey : Option Bytes
  isDecoyMode : Bool
  vault : JsVal
deriving DecidableEq

structure UnlockResult where
  outcome : UnlockOutcome
  state : SessionState
deriving DecidableEq

/-- The `unlock-btn` click handler (crypto-utils.ts §6 "AUTHENTICATION &
CORE EVENTS"): if a primary blob exists, derive a key from the primary
salt and try to decrypt it; on failure fall through to the decoy blob
with the decoy salt; a successful decrypt records the derived key as the
session key and sets `isDecoyMode`; the decrypted text is then
`JSON.parse`d into the `vault` global (a parse failure escapes to the
outer catch as "Encryption Error." after the session fields were already
assigned); when both blobs are absent the handler still shows the vault
view; otherwise it alerts "Access Denied".  `freshReal`/`freshDecoy`
stand for the random salts `generateSalt()` would return if a stored
salt were missing. -/
def unlockAttempt (st : Store) (s₀ : SessionState) (pwd : String)
    (freshReal freshDecoy : Bytes) : UnlockResult :=
  if pwd = "" then ⟨.noAttempt, s₀⟩
  else
    let primaryTry : Option Bytes × SessionState :=
      match st.encrypted_vault with
      | some blob =>
        let realKey := deriveKey pwd (getSaltD st.vault_salt freshReal)
        match decryptBytes blob.data realKey blob.iv with
        | some d => (some d, { s₀ with sessionKey := some realKey, isDecoyMode := false })
        | none => (none, s₀)
      | none => (none, s₀)
    let decoyTry : Option Bytes × SessionState :=
      match primaryTry.1 with
      | some _ => primaryTry
      | none =>
        match st.decoy_vault with
        | some blob =>
          let decoyKey := deriveKey pwd (getSaltD st.decoy_salt freshDecoy)
          match decryptBytes blob.data decoyKey blob.iv with
          | some d =>
            (some d, { primaryTry.2 with sessionKey := some decoyKey, isDecoyMode := true })
          | none => (none, primaryTry.2)
        | none => (none, primaryTry.2)
    match decoyTry.1 with
    | some d =>
      match jsonParse d with
      | some v => ⟨.granted, { decoyTry.2 with vault := v }⟩
      | none => ⟨.encryptionError, decoyTry.2⟩
    | none =>
      if st.encrypted_vault = none ∧ st.decoy_vault = none then ⟨.granted, decoyTry.2⟩
      else ⟨.accessDenied, decoyTry.2⟩

/-- A stored vault slot encrypted under `pwd` with salt `salt` and nonce
`nonce`, containing the JSON document of the value `v`. -/
def slotBlob (pwd : String) (salt nonce : Bytes) (v : JsVal) : Blob :=
  ⟨nonce, encryptBytes (docBytes (.jsonDoc v)) (deriveKey pwd salt) nonce⟩

/-- A store holding a primary slot keyed by password `A` and a decoy slot
keyed by password `B`. -/
def twoSlotStore (A B : String) (sA sB nA nB : Bytes) (vP vD : JsVal) : Store :=
  ⟨some (slotBlob A sA nA vP), some (slotBlob B sB nB vD), some sA, some sB⟩

/-- The `save-vault` event handler: if no session key is held, do
nothing; otherwise re-encrypt the current in-memory vault object with the
held session key and write it to `decoy_vault` when the session is in
decoy mode, to `encrypted_vault` otherwise (`storageKey = isDecoyMode ?
'decoy_vault' : 'encrypted_vault'`).  `freshIv` stands for the random
nonce `CryptoEngine.encrypt` generates. -/
def saveVault (st : Store) (s : SessionState) (freshIv : Bytes) : Store :=
  match s.sessionKey with
  | none => st
  | some key =>
    let blob : Blob := ⟨freshIv, encryptBytes (docBytes (.jsonDoc s.vault)) key freshIv⟩
    if s.isDecoyMode then { st with decoy_vault := some blob }
    else { st with encrypted_vault := some blob }

/-- A whole session's worth of saves: each element of `saves` is the
in-memory vault at the time of that save (entry edits mutate `vault` but
never `sessionKey` or `isDecoyMode`) together with the fresh nonce of
that save. -/
def saveMany (st : Store) (s : SessionState) (saves : List (JsVal × Bytes)) : Store :=
  saves.foldl (fun acc p => saveVault acc { s with vault := p.1 } p.2) st

/-- JavaScript's `\s` class as used by `replace(/\s+/g, '')`, restricted
to the ASCII whitespace characters. -/
def isJsSpace (c : Char) : Bool :=
  c == ' ' || c == '\t' || c == '\n' || c == '\r' || c == '\x0b' || c == '\x0c'

/-- One character of the Base32 alphabet `[A-Z2-7]`. -/
def base32Char (c : Char) : Bool :=
  (decide ('A' ≤ c) && decide (c ≤ 'Z')) || (decide ('2' ≤ c) && decide (c ≤ '7'))

/-- The cleaning step `input.replace` of `validateBase32`: the input with all whitespace removed. -/
def cleanStr (s : String) : List Char := s.data.filter (fun c => !(isJsSpace c))

/-- Length of the trailing run of `=` (the `/=+$/` match). -/
def b32Pad (cleaned : List Char) : Nat := (cleaned.rtakeWhile (fun c => c == '=')).length

/-- The cleaned input with its trailing `=` run removed. -/
def b32Body (cleaned : List Char) : List Char := cleaned.rdropWhile (fun c => c == '=')

/-- The four rejection messages of `validateBase32`, plus acceptance. -/
inductive B32Result where
  | ok
  | emptyInput
  | badAlphabet
  | badPadding
  | tooShort
deriving DecidableEq

/-- The validator `SecurityScanner.validateBase32`: reject the empty input; strip
whitespace; require the cleaned input to match `^[A-Z2-7]+=*$`; when a
trailing padding run exists its length must be 1, 3, 4 or 6; require at
least 16 cleaned characters. -/
def validateBase32 (input : String) : B32Result :=
  if input.length = 0 then .emptyInput
  else if ¬(b32Body (cleanStr input) ≠ [] ∧
      (b32Body (cleanStr input)).all base32Char = true) then .badAlphabet
  else if b32Pad (cleanStr input) ≠ 0 ∧ b32Pad (cleanStr input) ∉ [1, 3, 4, 6] then .badPadding
  else if (cleanStr input).length < 16 then .tooShort
  else .ok

/-- The password-history tracking of `VaultState.updateEntry`, embedded
from the snippet documented in DEVELOPER_MANUAL.md ("Password History"):
`if (updates.password && updates.password !== entry.password) \x7b
updates.history = [entry.password, ...(entry.history || [])].slice(0, 5) \x7d`,
with the updated password then merged into the entry.  Note the
JavaScript truthiness guard `updates.password &&`: an empty-string new
password skips the history update. -/
def recordChange (entry : Entry) (newSecret : String) : Entry :=
  if newSecret ≠ "" ∧ newSecret ≠ entry.password then
    { entry with password := newSecret,
                 history := some ((entry.password :: entry.history.getD []).take 5) }
  else
    { entry with password := newSecret }

/-- The `BiometricService` persistent storage.  The credential id is kept as
raw bytes: `btoa`/`atob` are mutually inverse on byte strings, so the
base64 framing is dropped from the model. -/
structure BioStore where
  bio_credential_id : Option Bytes
  bio_wrapped_password : Option Blob
  bio_registered : Bool
deriving DecidableEq

/-- The fixed salt "WebVault" of `BiometricService.WEBAUTHN_CONFIG`. -/
def webauthnSalt : Bytes := [87, 101, 98, 86, 97, 117, 108, 116]

/-- Modelled from the spec: `BiometricService.deriveWrappingKey`, a
PBKDF2(SHA-256, 100000 iterations) derivation performed by the platform
(`crypto.subtle`, outside the repository sources) — an ideal
deterministic function of the credential id alone, with the fixed
implicit salt "WebVault" and no per-registration salt; injective in the
credential id. -/
def deriveWrappingKey (credentialId : Bytes) : Bytes :=
  webauthnSalt ++ credentialId

/-- The helper `BiometricService.encryptPassword`: AES-GCM of the UTF-8 master
password under the wrapping key with a fresh 12-byte iv. -/
def encryptPassword (password : String) (wrappingKey : Bytes) (freshIv : Bytes) : Blob :=
  ⟨freshIv, encryptBytes (strBytes password) wrappingKey freshIv⟩

/-- The helper `BiometricService.decryptPassword`: AES-GCM decryption followed by
`TextDecoder`. -/
def decryptPassword (blob : Blob) (wrappingKey : Bytes) : Option String :=
  (decryptBytes blob.data wrappingKey blob.iv).map bytesToStr

/-- The operation `BiometricService.register`: requires WebAuthn support, obtains a
platform credential (`none` models a failed `credentials.create`),
derives the wrapping key from the credential id, encrypts the master
password under it, and persists credential id, wrapped password and the
registered flag. -/
def bioRegister (st : BioStore) (masterPassword : String) (supported : Bool)
    (credential : Option Bytes) (freshIv : Bytes) : Except String BioStore :=
  if ¬supported then
    .error "WebAuthn not supported. Requires HTTPS and compatible device."
  else
    match credential with
    | none => .error "Failed to create credential"
    | some rawId =>
      .ok { st with
        bio_credential_id := some rawId,
        bio_wrapped_password :=
          some (encryptPassword masterPassword (deriveWrappingKey rawId) freshIv),
        bio_registered := true }

/-- The operation `BiometricService.unlock`: fails when no credential id or no wrapped
password is stored or WebAuthn is unsupported; requires a fresh platform
assertion (`assertionOk` models `credentials.get` resolving; rejection or
user cancellation surfaces as the thrown error); then re-derives the
wrapping key from the stored credential id and decrypts the wrapped
master password. -/
def bioUnlock (st : BioStore) (supported : Bool) (assertionOk : Bool) : Except String String :=
  match st.bio_credential_id with
  | none => .error "No passkey found. Please register TouchID/FaceID first."
  | some credentialId =>
    match st.bio_wrapped_password with
    | none =>
      .error "Legacy biometric mode detected. Please re-register your passkey for passwordless unlock."
    | some wrapped =>
      if ¬supported then .error "WebAuthn not supported."
      else if ¬assertionOk then .error "Biometric assertion failed or cancelled"
      else
        match decryptPassword wrapped (deriveWrappingKey credentialId) with
        | some pwd => .ok pwd
        | none => .error "Decryption failed"

/-- The exported helper `getSalt(storageKey)` of `utils/crypto-utils.ts`, over the
localStorage key-value map: returns the parsed stored salt when the key
is present, otherwise a freshly generated random salt (`fresh` stands
for the 32 random bytes of `generateSalt()`); the store is returned
untouched — the function body contains no `setItem`. -/
def getSalt (store : List (String × Bytes)) (storageKey : String) (fresh : Bytes) :
    Bytes × List (String × Bytes) :=
  match store.lookup storageKey with
  | some saltArray => (saltArray, store)
  | none => (fresh, store)

theorem bytesToStr_strBytes (s : String) : bytesToStr (strBytes s) = s := by
  cases s with
  | mk data =>
    simp only [bytesToStr, strBytes, List.map_map]
    congr 1
    have : ∀ c : Char, (Char.ofNat ∘ Char.toNat) c = id c := fun c => Char.ofNat_toNat c
    rw [List.map_congr_left fun c _ => this c, List.map_id]

theorem strBytes_injective : Function.Injective strBytes := by
  intro s t h
  have := congrArg bytesToStr h
  rwa [bytesToStr_strBytes, bytesToStr_strBytes] at this

theorem deriveKey_inj {p₁ p₂ : String} {s₁ s₂ : Bytes}
    (h : deriveKey p₁ s₁ = deriveKey p₂ s₂) : p₁ = p₂ ∧ s₁ = s₂ := by
  unfold deriveKey at h
  injection h with hlen happ
  have hs : s₁ = s₂ ∧ strBytes p₁ = strBytes p₂ :=
    List.append_inj happ (by omega)
  exact ⟨strBytes_injective hs.2, hs.1⟩

theorem decrypt_encrypt (m k n : Bytes) :
    decryptBytes (encryptBytes m k n) k n = some m := by
  unfold encryptBytes decryptBytes
  simp [List.take_left, List.drop_left]

theorem decrypt_wrong_key (m k n : Bytes) (k' : Bytes) (hk : k' ≠ k) :
    decryptBytes (encryptBytes m k n) k' n = none := by
  have hk' : k ≠ k' := fun h => hk h.symm
  unfold encryptBytes decryptBytes
  by_cases hlen : k.length = k'.length
  · have htake : (k ++ (n.length :: (n ++ m))).take k'.length = k := by
      rw [← hlen]
      exact List.take_left k (n.length :: (n ++ m))
    simp [htake, hk']
  · simp [hlen]

theorem sum_set (l : Bytes) :
    ∀ i v w, l[i]? = some w → (l.set i v).sum + w = l.sum + v := by
  induction l with
  | nil => intro i v w h; simp at h
  | cons a t ih =>
    intro i v w h
    cases i with
    | zero =>
      simp at h
      subst h
      simp [List.set]
      omega
    | succ j =>
      simp at h
      have := ih j v w h
      simp [List.set]
      omega

theorem mem_of_getElem?_eq_some : ∀ (l : Bytes) (i w : Nat), l[i]? = some w → w ∈ l := by
  intro l
  induction l with
  | nil => intro i w h; simp at h
  | cons a t ih =>
    intro i w h
    cases i with
    | zero => simp at h; simp [h]
    | succ j =>
      simp only [List.getElem?_cons_succ] at h
      exact List.mem_cons_of_mem a (ih j w h)

theorem decrypt_tag_mismatch (tag : Nat) (body : Bytes) (k n : Bytes)
    (h : tag ≠ body.sum % 256) : decryptBytes (tag :: body) k n = none := by
  unfold decryptBytes
  simp [h]

/-- C5: For all keys K, 12-byte nonces N and plaintexts M,
`decrypt(encrypt(M, K, N), K, N) = M`: decryption with the same key and
nonce recovers exactly the encrypted plaintext. -/
theorem aead_roundtrip (k n m : Bytes) (_hn : n.length = 12) :
    decryptBytes (encryptBytes m k n) k n = some m :=
  decrypt_encrypt m k n

theorem aead_roundtrip_witness :
    ([3, 4, 5, 6, 7, 8, 9, 10, 11, 12, 13, 14] : Bytes).length = 12 ∧
      decryptBytes (encryptBytes [1, 2] [21] [3, 4, 5, 6, 7, 8, 9, 10, 11, 12, 13, 14])
        [21] [3, 4, 5, 6, 7, 8, 9, 10, 11, 12, 13, 14] = some [1, 2] :=
  ⟨by decide, aead_roundtrip [21] [3, 4, 5, 6, 7, 8, 9, 10, 11, 12, 13, 14] [1, 2] (by decide)⟩

/-- C6: For every ciphertext produced by `encrypt` under key K and nonce N,
flipping any single byte of that ciphertext (including the authentication
tag) causes `decrypt` under K and N to fail (`none`, the model's
`AuthenticationError`); decrypt never returns altered plaintext for a
corrupted input. -/
theorem aead_byte_flip_fails (m k n : Bytes)
    (hm : ∀ b ∈ m, b < 256) (hk : ∀ b ∈ k, b < 256) (hn : ∀ b ∈ n, b < 256)
    (hkl : k.length = 32) (hnl : n.length = 12)
    (i v w : Nat) (hw : (encryptBytes m k n)[i]? = some w)
    (hv : v < 256) (hne : v ≠ w) :
    decryptBytes ((encryptBytes m k n).set i v) k n = none := by
  have hbody : ∀ b ∈ k.length :: (k ++ (n.length :: (n ++ m))), b < 256 := by
    intro b hb
    simp [List.mem_cons, List.mem_append] at hb
    rcases hb with h | h | h | h | h
    · omega
    · exact hk b h
    · omega
    · exact hn b h
    · exact hm b h
  unfold encryptBytes at hw ⊢
  set body := k.length :: (k ++ (n.length :: (n ++ m))) with hbodydef
  cases i with
  | zero =>
    simp at hw
    rw [List.set_cons_zero]
    exact decrypt_tag_mismatch v body k n (by rw [hw]; exact hne)
  | succ j =>
    simp only [List.getElem?_cons_succ] at hw
    rw [List.set_cons_succ]
    have hwlt : w < 256 := hbody w (mem_of_getElem?_eq_some body j w hw)
    have hsum : (body.set j v).sum + w = body.sum + v := sum_set body j v w hw
    refine decrypt_tag_mismatch _ _ k n ?_
    intro htag
    omega

theorem aead_byte_flip_fails_witness :
    (∀ b ∈ ([5] : Bytes), b < 256) ∧ (∀ b ∈ List.replicate 32 1, b < 256) ∧
      (∀ b ∈ List.replicate 12 2, b < 256) ∧
      (List.replicate 32 1 : Bytes).length = 32 ∧ (List.replicate 12 2 : Bytes).length = 12 ∧
      (encryptBytes [5] (List.replicate 32 1) (List.replicate 12 2))[1]? = some 32 ∧
      (7 : Nat) < 256 ∧ (7 : Nat) ≠ 32 ∧
      decryptBytes ((encryptBytes [5] (List.replicate 32 1) (List.replicate 12 2)).set 1 7)
        (List.replicate 32 1) (List.replicate 12 2) = none :=
  ⟨by decide, by decide, by decide, by decide, by decide, by decide, by decide, by decide,
    aead_byte_flip_fails [5] (List.replicate 32 1) (List.replicate 12 2)
      (by decide) (by decide) (by decide) (by decide) (by decide)
      1 7 32 (by decide) (by decide) (by decide)⟩

theorem strBytes_length (s : String) : (strBytes s).length = s.length := by
  rw [strBytes, List.length_map]; rfl

theorem decStr_encStr (s : String) (r : Bytes) : decStr (encStr s ++ r) = some (s, r) := by
  have hlen : (strBytes s).length = s.length := strBytes_length s
  have htake : (strBytes s ++ r).take s.length = strBytes s := by
    rw [← hlen]; exact List.take_left _ _
  have hdrop : (strBytes s ++ r).drop s.length = r := by
    rw [← hlen]; exact List.drop_left _ _
  have hle : s.length ≤ (strBytes s ++ r).length := by
    rw [List.length_append, hlen]; omega
  show decStr (s.length :: (strBytes s ++ r)) = some (s, r)
  rw [decStr, if_pos hle, htake, hdrop, bytesToStr_strBytes]

theorem decOptStr_encOptStr (o : Option String) (r : Bytes) :
    decOptStr (encOptStr o ++ r) = some (o, r) := by
  cases o with
  | none => rfl
  | some s =>
    show decOptStr (1 :: (encStr s ++ r)) = some (some s, r)
    rw [decOptStr, if_neg one_ne_zero, decStr_encStr]

theorem decStrListN_enc (l : List String) (r : Bytes) :
    decStrListN l.length ((l.map encStr).flatten ++ r) = some (l, r) := by
  induction l generalizing r with
  | nil => rfl
  | cons s t ih =>
    have hshape : ((s :: t).map encStr).flatten ++ r =
        encStr s ++ ((t.map encStr).flatten ++ r) := by
      simp
    rw [List.length_cons, hshape, decStrListN, decStr_encStr]
    dsimp only
    rw [ih r]

theorem decHist_encHist (o : Option (List String)) (r : Bytes) :
    decHist (encHist o ++ r) = some (o, r) := by
  cases o with
  | none => rfl
  | some l =>
    show decHist (1 :: (l.length :: ((l.map encStr).flatten ++ r))) = some (some l, r)
    rw [decHist, if_neg one_ne_zero, decStrListN_enc]

theorem decEntry_encEntry (e : Entry) (r : Bytes) :
    decEntry (encEntry e ++ r) = some (e, r) := by
  simp only [encEntry, List.append_assoc]
  rw [decEntry, decStr_encStr]
  dsimp only
  rw [decStr_encStr]
  dsimp only
  rw [decStr_encStr]
  dsimp only
  rw [decStr_encStr]
  dsimp only
  rw [decStr_encStr]
  dsimp only
  rw [decOptStr_encOptStr]
  dsimp only
  rw [decHist_encHist]

theorem decEntryListN_enc (l : List Entry) (r : Bytes) :
    decEntryListN l.length ((l.map encEntry).flatten ++ r) = some (l, r) := by
  induction l generalizing r with
  | nil => rfl
  | cons e t ih =>
    have hshape : ((e :: t).map encEntry).flatten ++ r =
        encEntry e ++ ((t.map encEntry).flatten ++ r) := by
      simp
    rw [List.length_cons, hshape, decEntryListN, decEntry_encEntry]
    dsimp only
    rw [ih r]

theorem decJsVal_encJsVal (v : JsVal) (r : Bytes) :
    decJsVal (encJsVal v ++ r) = some (v, r) := by
  cases v with
  | vaultObj es =>
    show decJsVal (0 :: (es.length :: ((es.map encEntry).flatten ++ r))) = some (.vaultObj es, r)
    rw [decJsVal, decEntryListN_enc]
  | otherJson t => rfl

theorem jsonParse_jsonDoc (v : JsVal) : jsonParse (docBytes (.jsonDoc v)) = some v := by
  have h := decJsVal_encJsVal v []
  rw [List.append_nil] at h
  show jsonParse (0 :: encJsVal v) = some v
  rw [jsonParse, h]

theorem jsonParse_notJson (t : Nat) : jsonParse (docBytes (.notJson t)) = none := rfl

/-- C1: For a store containing a primary slot encrypted under password A
and a decoy slot encrypted under password B (A ≠ B), an unlock attempt
with A decrypts the primary blob, holds the primary-derived key as the
session key and loads the primary vault contents (decoy mode off); an
unlock attempt with B fails on the primary blob, falls through to the
decoy slot, succeeds, loads the decoy contents and records decoy mode;
an unlock attempt with any third password C that decrypts neither blob
is denied. -/
theorem unlock_fallthrough
    (A B C : String) (sA sB nA nB f₁ f₂ : Bytes) (vP vD : JsVal) (s₀ : SessionState)
    (hA : A ≠ "") (hB : B ≠ "") (hC : C ≠ "")
    (hAB : A ≠ B) (hCA : C ≠ A) (hCB : C ≠ B) :
    unlockAttempt (twoSlotStore A B sA sB nA nB vP vD) s₀ A f₁ f₂ =
      ⟨.granted, ⟨some (deriveKey A sA), false, vP⟩⟩ ∧
    unlockAttempt (twoSlotStore A B sA sB nA nB vP vD) s₀ B f₁ f₂ =
      ⟨.granted, ⟨some (deriveKey B sB), true, vD⟩⟩ ∧
    unlockAttempt (twoSlotStore A B sA sB nA nB vP vD) s₀ C f₁ f₂ =
      ⟨.accessDenied, s₀⟩ := by
  have hkAB : deriveKey B sA ≠ deriveKey A sA := fun h => hAB ((deriveKey_inj h).1).symm
  have hkCA : deriveKey C sA ≠ deriveKey A sA := fun h => hCA ((deriveKey_inj h).1)
  have hkCB : deriveKey C sB ≠ deriveKey B sB := fun h => hCB ((deriveKey_inj h).1)
  have dPA : decryptBytes (encryptBytes (docBytes (.jsonDoc vP)) (deriveKey A sA) nA)
      (deriveKey A sA) nA = some (docBytes (.jsonDoc vP)) := decrypt_encrypt _ _ _
  have dDB : decryptBytes (encryptBytes (docBytes (.jsonDoc vD)) (deriveKey B sB) nB)
      (deriveKey B sB) nB = some (docBytes (.jsonDoc vD)) := decrypt_encrypt _ _ _
  have dPB : decryptBytes (encryptBytes (docBytes (.jsonDoc vP)) (deriveKey A sA) nA)
      (deriveKey B sA) nA = none := decrypt_wrong_key _ _ _ _ hkAB
  have dPC : decryptBytes (encryptBytes (docBytes (.jsonDoc vP)) (deriveKey A sA) nA)
      (deriveKey C sA) nA = none := decrypt_wrong_key _ _ _ _ hkCA
  have dDC : decryptBytes (encryptBytes (docBytes (.jsonDoc vD)) (deriveKey B sB) nB)
      (deriveKey C sB) nB = none := decrypt_wrong_key _ _ _ _ hkCB
  refine ⟨?_, ?_, ?_⟩
  · unfold unlockAttempt twoSlotStore slotBlob
    rw [if_neg hA]
    simp only [getSaltD, dPA, jsonParse_jsonDoc]
  · unfold unlockAttempt twoSlotStore slotBlob
    rw [if_neg hB]
    simp only [getSaltD, dPB, dDB, jsonParse_jsonDoc]
  · unfold unlockAttempt twoSlotStore slotBlob
    rw [if_neg hC]
    simp only [getSaltD, dPC, dDC]
    simp

theorem unlock_fallthrough_witness :
    ("primarypassword" : String) ≠ "" ∧ ("decoypassword12" : String) ≠ "" ∧
      ("wrongpassword12" : String) ≠ "" ∧
      ("primarypassword" : String) ≠ "decoypassword12" ∧
      ("wrongpassword12" : String) ≠ "primarypassword" ∧
      ("wrongpassword12" : String) ≠ "decoypassword12" ∧
      unlockAttempt (twoSlotStore "primarypassword" "decoypassword12" [1] [2] [3] [4]
          (.vaultObj []) (.otherJson 0)) ⟨none, false, .vaultObj []⟩ "primarypassword" [] [] =
        ⟨.granted, ⟨some (deriveKey "primarypassword" [1]), false, .vaultObj []⟩⟩ ∧
      unlockAttempt (twoSlotStore "primarypassword" "decoypassword12" [1] [2] [3] [4]
          (.vaultObj []) (.otherJson 0)) ⟨none, false, .vaultObj []⟩ "decoypassword12" [] [] =
        ⟨.granted, ⟨some (deriveKey "decoypassword12" [2]), true, .otherJson 0⟩⟩ ∧
      unlockAttempt (twoSlotStore "primarypassword" "decoypassword12" [1] [2] [3] [4]
          (.vaultObj []) (.otherJson 0)) ⟨none, false, .vaultObj []⟩ "wrongpassword12" [] [] =
        ⟨.accessDenied, ⟨none, false, .vaultObj []⟩⟩ :=
  ⟨by decide, by decide, by decide, by decide, by decide, by decide,
    (unlock_fallthrough "primarypassword" "decoypassword12" "wrongpassword12"
      [1] [2] [3] [4] [] [] (.vaultObj []) (.otherJson 0) ⟨none, false, .vaultObj []⟩
      (by decide) (by decide) (by decide) (by decide) (by decide) (by decide)).1,
    (unlock_fallthrough "primarypassword" "decoypassword12" "wrongpassword12"
      [1] [2] [3] [4] [] [] (.vaultObj []) (.otherJson 0) ⟨none, false, .vaultObj []⟩
      (by decide) (by decide) (by decide) (by decide) (by decide) (by decide)).2.1,
    (unlock_fallthrough "primarypassword" "decoypassword12" "wrongpassword12"
      [1] [2] [3] [4] [] [] (.vaultObj []) (.otherJson 0) ⟨none, false, .vaultObj []⟩
      (by decide) (by decide) (by decide) (by decide) (by decide) (by decide)).2.2⟩

/-- C2 (evaluation at the failing input): when neither a primary nor a
decoy slot exists in storage (first run), the unlock handler nevertheless
presents the vault view — the condition
`if (decrypted || (!real && !decoy))` grants access with no session key
set — where the spec requires the authenticator to refuse to succeed. -/
theorem unlock_first_run_grants :
    unlockAttempt ⟨none, none, none, none⟩ ⟨none, false, .vaultObj []⟩ "password12345" [] [] =
      ⟨.granted, ⟨none, false, .vaultObj []⟩⟩ := by
  decide

/-- C3 counterexample: two failing unlock runs on the same store are
observably different.  A primary blob that decrypts under the entered
password but whose plaintext fails `JSON.parse` escapes to the outer
catch ("Encryption Error."), while a wrong password yields the generic
denial ("Access Denied: Incorrect Master Password.") — so the claim that
every failing attempt produces one indistinguishable generic denial is
false on the code. -/
theorem unlock_failures_distinguishable :
    (unlockAttempt ⟨some ⟨[2], encryptBytes (docBytes (.notJson 0))
          (deriveKey "parsefailpass12" [1]) [2]⟩, none, some [1], none⟩
        ⟨none, false, .vaultObj []⟩ "parsefailpass12" [] []).outcome = .encryptionError ∧
      (unlockAttempt ⟨some ⟨[2], encryptBytes (docBytes (.notJson 0))
            (deriveKey "parsefailpass12" [1]) [2]⟩, none, some [1], none⟩
          ⟨none, false, .vaultObj []⟩ "wrongpassword12" [] []).outcome = .accessDenied ∧
      (UnlockOutcome.encryptionError ≠ UnlockOutcome.accessDenied) ∧
      alertMessage .encryptionError ≠ alertMessage .accessDenied := by
  decide

/-- C3 (amended): the two wrong-password failure cases — wrong password
with only a primary slot configured, and wrong password with both slots
configured — produce identical observable results (the same generic
`accessDenied` outcome and untouched session state); but a blob that
decrypts and then fails to parse as JSON produces a different observable
result (`encryptionError`, a distinct alert message). -/
theorem unlock_denial_uniform_for_wrong_password
    (A B W : String) (sA sB nA nB f₁ f₂ : Bytes) (vP vD : JsVal) (s₀ : SessionState)
    (hA : A ≠ "") (hW : W ≠ "") (hWA : W ≠ A) (hWB : W ≠ B) (t : Nat) :
    unlockAttempt ⟨some (slotBlob A sA nA vP), none, some sA, none⟩ s₀ W f₁ f₂ =
      ⟨.accessDenied, s₀⟩ ∧
    unlockAttempt (twoSlotStore A B sA sB nA nB vP vD) s₀ W f₁ f₂ =
      ⟨.accessDenied, s₀⟩ ∧
    unlockAttempt ⟨some ⟨nA, encryptBytes (docBytes (.notJson t)) (deriveKey A sA) nA⟩,
        none, some sA, none⟩ s₀ A f₁ f₂ =
      ⟨.encryptionError, { s₀ with sessionKey := some (deriveKey A sA), isDecoyMode := false }⟩ ∧
    alertMessage .encryptionError ≠ alertMessage .accessDenied := by
  have hkWA : deriveKey W sA ≠ deriveKey A sA := fun h => hWA ((deriveKey_inj h).1)
  have hkWB : deriveKey W sB ≠ deriveKey B sB := fun h => hWB ((deriveKey_inj h).1)
  have dPW : decryptBytes (encryptBytes (docBytes (.jsonDoc vP)) (deriveKey A sA) nA)
      (deriveKey W sA) nA = none := decrypt_wrong_key _ _ _ _ hkWA
  have dDW : decryptBytes (encryptBytes (docBytes (.jsonDoc vD)) (deriveKey B sB) nB)
      (deriveKey W sB) nB = none := decrypt_wrong_key _ _ _ _ hkWB
  have dNJ : decryptBytes (encryptBytes (docBytes (.notJson t)) (deriveKey A sA) nA)
      (deriveKey A sA) nA = some (docBytes (.notJson t)) := decrypt_encrypt _ _ _
  refine ⟨?_, ?_, ?_, by decide⟩
  · unfold unlockAttempt slotBlob
    rw [if_neg hW]
    simp only [getSaltD, dPW]
    simp
  · unfold unlockAttempt twoSlotStore slotBlob
    rw [if_neg hW]
    simp only [getSaltD, dPW, dDW]
    simp
  · unfold unlockAttempt
    rw [if_neg hA]
    simp only [getSaltD, dNJ, jsonParse_notJson]

theorem unlock_denial_uniform_witness :
    ("primarypassword" : String) ≠ "" ∧ ("wrongpassword12" : String) ≠ "" ∧
      ("wrongpassword12" : String) ≠ "primarypassword" ∧
      ("wrongpassword12" : String) ≠ "decoypassword12" ∧
      unlockAttempt ⟨some (slotBlob "primarypassword" [1] [3] (.vaultObj [])), none,
          some [1], none⟩ ⟨none, false, .vaultObj []⟩ "wrongpassword12" [] [] =
        ⟨.accessDenied, ⟨none, false, .vaultObj []⟩⟩ ∧
      unlockAttempt (twoSlotStore "primarypassword" "decoypassword12" [1] [2] [3] [4]
          (.vaultObj []) (.vaultObj [])) ⟨none, false, .vaultObj []⟩ "wrongpassword12" [] [] =
        ⟨.accessDenied, ⟨none, false, .vaultObj []⟩⟩ :=
  ⟨by decide, by decide, by decide, by decide,
    (unlock_denial_uniform_for_wrong_password "primarypassword" "decoypassword12"
      "wrongpassword12" [1] [2] [3] [4] [] [] (.vaultObj []) (.vaultObj [])
      ⟨none, false, .vaultObj []⟩ (by decide) (by decide) (by decide) (by decide) 0).1,
    (unlock_denial_uniform_for_wrong_password "primarypassword" "decoypassword12"
      "wrongpassword12" [1] [2] [3] [4] [] [] (.vaultObj []) (.vaultObj [])
      ⟨none, false, .vaultObj []⟩ (by decide) (by decide) (by decide) (by decide) 0).2.1⟩

theorem saveMany_decoy_frame (s : SessionState) (hd : s.isDecoyMode = true) :
    ∀ (saves : List (JsVal × Bytes)) (st : Store),
      (saveMany st s saves).encrypted_vault = st.encrypted_vault ∧
        (saveMany st s saves).vault_salt = st.vault_salt ∧
        (saveMany st s saves).decoy_salt = st.decoy_salt := by
  intro saves
  induction saves with
  | nil => intro st; exact ⟨rfl, rfl, rfl⟩
  | cons p rest ih =>
    intro st
    have hstep : ∀ st' : Store,
        (saveVault st' { s with vault := p.1 } p.2).encrypted_vault = st'.encrypted_vault ∧
          (saveVault st' { s with vault := p.1 } p.2).vault_salt = st'.vault_salt ∧
          (saveVault st' { s with vault := p.1 } p.2).decoy_salt = st'.decoy_salt := by
      intro st'
      unfold saveVault
      cases s.sessionKey with
      | none => exact ⟨rfl, rfl, rfl⟩
      | some key => simp [hd]
    have hih := ih (saveVault st { s with vault := p.1 } p.2)
    simp only [saveMany, List.foldl_cons] at hih ⊢
    refine ⟨?_, ?_, ?_⟩
    · rw [hih.1]; exact (hstep st).1
    · rw [hih.2.1]; exact (hstep st).2.1
    · rw [hih.2.2]; exact (hstep st).2.2

theorem saveMany_primary_frame (s : SessionState) (hd : s.isDecoyMode = false) :
    ∀ (saves : List (JsVal × Bytes)) (st : Store),
      (saveMany st s saves).decoy_vault = st.decoy_vault ∧
        (saveMany st s saves).vault_salt = st.vault_salt ∧
        (saveMany st s saves).decoy_salt = st.decoy_salt := by
  intro saves
  induction saves with
  | nil => intro st; exact ⟨rfl, rfl, rfl⟩
  | cons p rest ih =>
    intro st
    have hstep : ∀ st' : Store,
        (saveVault st' { s with vault := p.1 } p.2).decoy_vault = st'.decoy_vault ∧
          (saveVault st' { s with vault := p.1 } p.2).vault_salt = st'.vault_salt ∧
          (saveVault st' { s with vault := p.1 } p.2).decoy_salt = st'.decoy_salt := by
      intro st'
      unfold saveVault
      cases s.sessionKey with
      | none => exact ⟨rfl, rfl, rfl⟩
      | some key => simp [hd]
    have hih := ih (saveVault st { s with vault := p.1 } p.2)
    simp only [saveMany, List.foldl_cons] at hih ⊢
    refine ⟨?_, ?_, ?_⟩
    · rw [hih.1]; exact (hstep st).1
    · rw [hih.2.1]; exact (hstep st).2.1
    · rw [hih.2.2]; exact (hstep st).2.2

/-- C4: The save operation re-encrypts the current in-memory vault with
the held session key and writes only to the slot that was the origin of
the current session: for every session unlocked in decoy mode, every
save (any sequence of saves, with the vault freely edited in between)
writes the decoy slot and leaves the primary blob (and both salts)
unchanged; for every session unlocked in primary mode, every save leaves
the decoy blob unchanged. -/
theorem save_targets_origin_slot
    (st₀ : Store) (s₀ : SessionState) (pwd : String) (f₁ f₂ : Bytes) (s : SessionState)
    (_hunlock : unlockAttempt st₀ s₀ pwd f₁ f₂ = ⟨.granted, s⟩) :
    (∀ (st : Store) (k iv : Bytes), s.sessionKey = some k →
      (s.isDecoyMode = true →
        (saveVault st s iv).decoy_vault =
            some (Blob.mk iv (encryptBytes (docBytes (.jsonDoc s.vault)) k iv)) ∧
          (saveVault st s iv).encrypted_vault = st.encrypted_vault) ∧
      (s.isDecoyMode = false →
        (saveVault st s iv).encrypted_vault =
            some (Blob.mk iv (encryptBytes (docBytes (.jsonDoc s.vault)) k iv)) ∧
          (saveVault st s iv).decoy_vault = st.decoy_vault)) ∧
    (s.isDecoyMode = true → ∀ (saves : List (JsVal × Bytes)) (st : Store),
      (saveMany st s saves).encrypted_vault = st.encrypted_vault ∧
        (saveMany st s saves).vault_salt = st.vault_salt ∧
        (saveMany st s saves).decoy_salt = st.decoy_salt) ∧
    (s.isDecoyMode = false → ∀ (saves : List (JsVal × Bytes)) (st : Store),
      (saveMany st s saves).decoy_vault = st.decoy_vault ∧
        (saveMany st s saves).vault_salt = st.vault_salt ∧
        (saveMany st s saves).decoy_salt = st.decoy_salt) := by
  refine ⟨?_, ?_, ?_⟩
  · intro st k iv hk
    constructor <;> intro hd <;> unfold saveVault <;> rw [hk] <;> simp [hd]
  · intro hd saves st
    exact saveMany_decoy_frame s hd saves st
  · intro hd saves st
    exact saveMany_primary_frame s hd saves st

theorem save_targets_origin_slot_witness :
    (unlockAttempt (twoSlotStore "primarypassword" "decoypassword12" [1] [2] [3] [4]
          (.vaultObj []) (.otherJson 0)) ⟨none, false, .vaultObj []⟩ "decoypassword12" [] [] =
        ⟨.granted, ⟨some (deriveKey "decoypassword12" [2]), true, .otherJson 0⟩⟩) ∧
      (saveMany (twoSlotStore "primarypassword" "decoypassword12" [1] [2] [3] [4]
            (.vaultObj []) (.otherJson 0))
          ⟨some (deriveKey "decoypassword12" [2]), true, .otherJson 0⟩
          [(.otherJson 0, [9]), (.vaultObj [], [10])]).encrypted_vault =
        (twoSlotStore "primarypassword" "decoypassword12" [1] [2] [3] [4]
          (.vaultObj []) (.otherJson 0)).encrypted_vault :=
  ⟨by decide,
    ((save_targets_origin_slot
        (twoSlotStore "primarypassword" "decoypassword12" [1] [2] [3] [4]
          (.vaultObj []) (.otherJson 0))
        ⟨none, false, .vaultObj []⟩ "decoypassword12" [] []
        ⟨some (deriveKey "decoypassword12" [2]), true, .otherJson 0⟩
        (by decide)).2.1 rfl [(.otherJson 0, [9]), (.vaultObj [], [10])]
        (twoSlotStore "primarypassword" "decoypassword12" [1] [2] [3] [4]
          (.vaultObj []) (.otherJson 0))).1⟩

theorem rdropWhile_append_rtakeWhile (p : Char → Bool) (l : List Char) :
    l.rdropWhile p ++ l.rtakeWhile p = l := by
  rw [List.rdropWhile, List.rtakeWhile, ← List.reverse_append,
    List.takeWhile_append_dropWhile, List.reverse_reverse]

theorem b32_decomposition (l : List Char) :
    b32Body l ++ List.replicate (b32Pad l) '=' = l := by
  have hrep : l.rtakeWhile (fun c => c == '=') = List.replicate (b32Pad l) '=' := by
    rw [List.eq_replicate_iff]
    refine ⟨rfl, ?_⟩
    intro b hb
    have := List.mem_rtakeWhile_imp hb
    exact eq_of_beq this
  rw [b32Body, ← hrep]
  exact rdropWhile_append_rtakeWhile _ l

theorem base32Char_ne_eq (c : Char) (h : base32Char c = true) : (c == '=') = false := by
  by_contra hb
  have : c = '=' := eq_of_beq (by revert hb; cases c == '=' <;> simp)
  subst this
  simp [base32Char] at h

theorem base32Char_not_space (c : Char) (h : base32Char c = true) : isJsSpace c = false := by
  by_contra hs
  have hs' : isJsSpace c = true := by revert hs; cases isJsSpace c <;> simp
  simp only [isJsSpace, Bool.or_eq_true, beq_iff_eq] at hs'
  rcases hs' with ((((h1 | h1) | h1) | h1) | h1) | h1 <;> subst h1 <;> simp [base32Char] at h

/-- C8 counterexample: the claim says any string containing a character
outside `A-Z`, `2-7` and trailing `=` is rejected, but `validateBase32`
strips whitespace before validating, so a string containing a space —
a character outside the alphabet — is accepted. -/
theorem validateBase32_accepts_space :
    validateBase32 "AAAAAAAA AAAAAAAA" = .ok ∧
      ' ' ∈ ("AAAAAAAA AAAAAAAA" : String).data ∧
      base32Char ' ' = false ∧ (' ' : Char) ≠ '=' := by
  decide

/-- C8 (amended): `validateBase32` rejects the empty string and `"12345"`;
whenever it accepts, the whitespace-cleaned input decomposes as a
nonempty run of `A-Z`/`2-7` characters followed by a trailing `=` run of
length 0, 1, 3, 4 or 6, and the cleaned input has at least 16
characters; and every 32-character string over `A-Z`,`2-7` is accepted.
(The original claim fails only in that whitespace is stripped, not
rejected.) -/
theorem validateBase32_correct :
    validateBase32 "" = .emptyInput ∧
      validateBase32 "12345" = .badAlphabet ∧
      (∀ s : String, validateBase32 s = .ok →
        b32Body (cleanStr s) ≠ [] ∧ (b32Body (cleanStr s)).all base32Char = true ∧
          b32Body (cleanStr s) ++ List.replicate (b32Pad (cleanStr s)) '=' = cleanStr s ∧
          b32Pad (cleanStr s) ∈ [0, 1, 3, 4, 6] ∧ 16 ≤ (cleanStr s).length) ∧
      (∀ s : String, s.data.length = 32 → s.data.all base32Char = true →
        validateBase32 s = .ok) := by
  refine ⟨by decide, by decide, ?_, ?_⟩
  · intro s h
    rw [validateBase32] at h
    by_cases h₁ : s.length = 0
    · rw [if_pos h₁] at h; exact absurd h (by decide)
    rw [if_neg h₁] at h
    by_cases h₂ : ¬(b32Body (cleanStr s) ≠ [] ∧ (b32Body (cleanStr s)).all base32Char = true)
    · rw [if_pos h₂] at h; exact absurd h (by decide)
    rw [if_neg h₂] at h
    by_cases h₃ : b32Pad (cleanStr s) ≠ 0 ∧ b32Pad (cleanStr s) ∉ [1, 3, 4, 6]
    · rw [if_pos h₃] at h; exact absurd h (by decide)
    rw [if_neg h₃] at h
    by_cases h₄ : (cleanStr s).length < 16
    · rw [if_pos h₄] at h; exact absurd h (by decide)
    push_neg at h₂
    rcases h₂ with ⟨hne, hall⟩
    refine ⟨hne, hall, b32_decomposition _, ?_, by omega⟩
    rcases Decidable.em (b32Pad (cleanStr s) = 0) with h0 | h0
    · simp [h0]
    · push_neg at h₃
      have hmem := h₃ h0
      simp only [List.mem_cons, List.mem_singleton] at hmem ⊢
      tauto
  · intro s hlen hall
    have hall' : ∀ c ∈ s.data, base32Char c = true := by
      intro c hc
      exact List.all_eq_true.mp hall c hc
    have hclean : cleanStr s = s.data := by
      rw [cleanStr, List.filter_eq_self]
      intro c hc
      rw [base32Char_not_space c (hall' c hc)]
      rfl
    have hne : s.data ≠ [] := by
      intro hnil
      rw [hnil] at hlen
      simp at hlen
    have hbody : b32Body (cleanStr s) = s.data := by
      rw [b32Body, hclean, List.rdropWhile_eq_self_iff]
      intro hne'
      rw [base32Char_ne_eq _ (hall' _ (List.getLast_mem hne'))]
      exact Bool.false_ne_true
    have hpad : b32Pad (cleanStr s) = 0 := by
      rw [b32Pad, hclean, List.length_eq_zero, List.rtakeWhile_eq_nil_iff]
      intro hne'
      rw [base32Char_ne_eq _ (hall' _ (List.getLast_mem hne'))]
      exact Bool.false_ne_true
    rw [validateBase32]
    rw [if_neg (by rw [String.length]; omega)]
    rw [if_neg (by rw [hbody]; exact not_not_intro ⟨hne, hall⟩)]
    rw [if_neg (by rw [hpad]; simp)]
    rw [if_neg (by rw [hclean]; omega)]

theorem validateBase32_correct_witness :
    ("ABCDEFGHIJKLMNOPQRSTUVWXYZ234567" : String).data.length = 32 ∧
      ("ABCDEFGHIJKLMNOPQRSTUVWXYZ234567" : String).data.all base32Char = true ∧
      validateBase32 "ABCDEFGHIJKLMNOPQRSTUVWXYZ234567" = .ok :=
  ⟨by decide, by decide,
    validateBase32_correct.2.2.2 "ABCDEFGHIJKLMNOPQRSTUVWXYZ234567" (by decide) (by decide)⟩

/-- C7 counterexample: with current secret "oldpass" and new secret `""`
(which differs from the current secret), the claim requires the previous
secret to be prepended to the history; the code's truthiness guard skips
the update and leaves the history absent. -/
theorem recordChange_empty_secret_skips_history :
    (recordChange ⟨"e1", "t", "u", "oldpass", "personal", none, none⟩ "").history = none ∧
      ("" : String) ≠ "oldpass" := by
  decide

/-- C7 (amended): if the new secret equals the entry's current secret
— or is empty, the one divergence from the claim — the history is
unchanged; otherwise the previous secret is prepended and the history
truncated to at most 5 elements; the history length never grows beyond
5; and six sequential `recordChange` calls with distinct nonempty
secrets leave exactly 5 history entries, oldest evicted first. -/
theorem recordChange_correct :
    (∀ e : Entry, (recordChange e e.password).history = e.history) ∧
      (∀ (e : Entry) (s : String), (recordChange e s).password = s) ∧
      (∀ (e : Entry) (s : String), s ≠ "" → s ≠ e.password →
        (recordChange e s).history = some ((e.password :: e.history.getD []).take 5)) ∧
      (∀ (e : Entry) (s : String), (e.history.getD []).length ≤ 5 →
        ((recordChange e s).history.getD []).length ≤ 5) ∧
      List.foldl recordChange ⟨"e1", "t", "u", "p0", "personal", none, none⟩
          ["p1", "p2", "p3", "p4", "p5", "p6"] =
        ⟨"e1", "t", "u", "p6", "personal", none, some ["p5", "p4", "p3", "p2", "p1"]⟩ := by
  refine ⟨?_, ?_, ?_, ?_, by decide⟩
  · intro e
    rw [recordChange, if_neg (by simp)]
  · intro e s
    rw [recordChange]
    by_cases h : s ≠ "" ∧ s ≠ e.password
    · rw [if_pos h]
    · rw [if_neg h]
  · intro e s h₁ h₂
    rw [recordChange, if_pos ⟨h₁, h₂⟩]
  · intro e s hlen
    rw [recordChange]
    by_cases h : s ≠ "" ∧ s ≠ e.password
    · rw [if_pos h]
      simp only [Option.getD_some]
      have := List.length_take_le 5 (e.password :: e.history.getD [])
      omega
    · rw [if_neg h]
      exact hlen

theorem recordChange_correct_witness :
    ("newpassword1" : String) ≠ "" ∧ ("newpassword1" : String) ≠ "oldpass" ∧
      (recordChange ⟨"e1", "t", "u", "oldpass", "personal", none, none⟩
          "newpassword1").history = some ["oldpass"] :=
  ⟨by decide, by decide,
    (recordChange_correct.2.2.1 ⟨"e1", "t", "u", "oldpass", "personal", none, none⟩
        "newpassword1" (by decide) (by decide)).trans (by decide)⟩

/-- C9: Biometric wrap round-trip — for every master password m, if
`register(m)` succeeds with platform-assigned credential id `cid`, then a
subsequent `unlock()` whose fresh platform assertion succeeds re-derives
the same wrapping key deterministically from the stored id (fixed
implicit salt, no per-registration salt) and returns exactly m. -/
theorem bio_register_unlock_roundtrip
    (st : BioStore) (m : String) (cid iv : Bytes) (st' : BioStore)
    (h : bioRegister st m true (some cid) iv = .ok st') :
    bioUnlock st' true true = .ok m := by
  have h' : Except.ok ({ st with
      bio_credential_id := some cid,
      bio_wrapped_password := some (encryptPassword m (deriveWrappingKey cid) iv),
      bio_registered := true } : BioStore) = (Except.ok st' : Except String BioStore) := by
    simpa [bioRegister] using h
  injection h' with h''
  subst h''
  simp [bioUnlock, decryptPassword, encryptPassword, decrypt_encrypt, bytesToStr_strBytes]

theorem bio_register_unlock_roundtrip_witness :
    bioRegister ⟨none, none, false⟩ "masterpassword1" true (some [1, 2, 3]) [9] =
        .ok ⟨some [1, 2, 3],
          some (encryptPassword "masterpassword1" (deriveWrappingKey [1, 2, 3]) [9]), true⟩ ∧
      bioUnlock ⟨some [1, 2, 3],
          some (encryptPassword "masterpassword1" (deriveWrappingKey [1, 2, 3]) [9]), true⟩
        true true = .ok "masterpassword1" :=
  ⟨rfl,
    bio_register_unlock_roundtrip ⟨none, none, false⟩ "masterpassword1" [1, 2, 3] [9]
      ⟨some [1, 2, 3],
        some (encryptPassword "masterpassword1" (deriveWrappingKey [1, 2, 3]) [9]), true⟩
      rfl⟩

/-- C10: `getSalt` never writes to the persistent store; when a salt is
stored under the key it returns exactly that salt; when none is stored
it returns the freshly generated salt (32 bytes when the generator
produces 32 bytes) without persisting it, so two calls for the same
absent key with distinct fresh randomness return distinct salts and the
store is unchanged in all cases. -/
theorem getSalt_reads_only
    (store : List (String × Bytes)) (key : String) (f₁ f₂ : Bytes) :
    (getSalt store key f₁).2 = store ∧
      (∀ s, store.lookup key = some s → (getSalt store key f₁).1 = s) ∧
      (store.lookup key = none → (getSalt store key f₁).1 = f₁) ∧
      (store.lookup key = none → f₁.length = 32 → (getSalt store key f₁).1.length = 32) ∧
      (store.lookup key = none → f₁ ≠ f₂ →
        (getSalt store key f₁).1 ≠ (getSalt store key f₂).1) := by
  refine ⟨?_, ?_, ?_, ?_, ?_⟩
  · unfold getSalt
    cases store.lookup key <;> rfl
  · intro s hs
    unfold getSalt
    rw [hs]
  · intro hs
    unfold getSalt
    rw [hs]
  · intro hs hlen
    unfold getSalt
    rw [hs]
    exact hlen
  · intro hs hne
    unfold getSalt
    rw [hs]
    exact hne

theorem getSalt_reads_only_witness :
    ([("vault_salt", [7])] : List (String × Bytes)).lookup "decoy_salt" = none ∧
      ([1] : Bytes) ≠ [2] ∧
      (getSalt [("vault_salt", [7])] "decoy_salt" [1]).1 ≠
        (getSalt [("vault_salt", [7])] "decoy_salt" [2]).1 ∧
      (getSalt [("vault_salt", [7])] "decoy_salt" [1]).2 = [("vault_salt", [7])] :=
  ⟨by decide, by decide,
    (getSalt_reads_only [("vault_salt", [7])] "decoy_salt" [1] [2]).2.2.2.2
      (by decide) (by decide),
    (getSalt_reads_only [("vault_salt", [7])] "decoy_salt" [1] [2]).1⟩
